import Mathlib

/-!
Verification of the weather-assistant repository's core logic against its
natural-language specification.

The Python sources are shallowly embedded over `List Char` (text) and a small
`Json` universe (provider payloads and parsed records, which in the source are
Python dicts holding arbitrary JSON values, including `None`).  Stateful
network collaborators (the weather provider and the language model) are
modelled by passing their per-call outcome as an explicit argument, exactly at
the interface boundary the orchestrator observes.
-/

namespace WeatherApp

/-! ### Python text primitives: whitespace, `str.split`, `" ".join`,
`str.strip`, `str.replace(pat, "")` -/

/-- ASCII whitespace recognised by Python's `str.split()` and the regex
class used in the sentence splitter. -/
def isSpace (c : Char) : Bool :=
  c == ' ' || c == '\t' || c == '\n' || c == '\r' || c == Char.ofNat 11 || c == Char.ofNat 12

/-- Sentence-terminal punctuation of the splitter regex in `main.py`. -/
def isPunct (c : Char) : Bool :=
  c == '.' || c == '!' || c == '?'

/-- Worker for `pySplit`; `word` is the reversed word read so far. -/
def pySplitAux : List Char → List Char → List (List Char)
  | [], word => if word = [] then [] else [word.reverse]
  | c :: cs, word =>
    if isSpace c then
      if word = [] then pySplitAux cs [] else word.reverse :: pySplitAux cs []
    else pySplitAux cs (c :: word)

/-- Python `s.split()`: break on runs of whitespace, dropping empty pieces. -/
def pySplit (s : List Char) : List (List Char) := pySplitAux s []

/-- Python `" ".join(ws)`. -/
def joinSp : List (List Char) → List Char
  | [] => []
  | [w] => w
  | w :: ws => w ++ ' ' :: joinSp ws

/-- Python `" ".join(s.split())`: collapse whitespace runs to single spaces. -/
def collapse (s : List Char) : List Char := joinSp (pySplit s)

/-- Python `s.strip()`. -/
def pyStrip (s : List Char) : List Char :=
  (((s.dropWhile isSpace).reverse).dropWhile isSpace).reverse

/-- Worker for `removeAll`.  The counter records how many characters of a
matched pattern occurrence remain to be skipped. -/
def removeAllAux (pat : List Char) : List Char → Nat → List Char
  | [], _ => []
  | _ :: cs, k + 1 => removeAllAux pat cs k
  | c :: cs, 0 =>
    if pat.isPrefixOf (c :: cs) then removeAllAux pat cs (pat.length - 1)
    else c :: removeAllAux pat cs 0

/-- Python `s.replace(pat, "")` for a non-empty `pat`: delete the
left-to-right non-overlapping occurrences of `pat`. -/
def removeAll (pat s : List Char) : List Char := removeAllAux pat s 0

/-! ### The sentence splitter of `WeatherAssistant.get_weather_insights`
(`main.py`, step 4) -/

/-- First character of the reversed fragment accumulator, i.e. the character
just before the current scan position. -/
def headPunct : List Char → Bool
  | c :: _ => isPunct c
  | [] => false

/-- Worker for `sentSplit`, embedding `re.split(r'(?<=[.!?])\s+', text)`:
scan the text; a whitespace run whose first character is preceded by
sentence-terminal punctuation separates fragments.  `skipping = true` while
consuming the remainder of a separator run; `frag` is the reversed current
fragment. -/
def sentAux : List Char → Bool → List Char → List (List Char)
  | [], _, frag => [frag.reverse]
  | c :: cs, true, frag =>
    if isSpace c then sentAux cs true frag else sentAux cs false [c]
  | c :: cs, false, frag =>
    if isSpace c && headPunct frag then frag.reverse :: sentAux cs true []
    else sentAux cs false (c :: frag)

/-- `re.split(r'(?<=[.!?])\s+', text)` from `main.py`. -/
def sentSplit (s : List Char) : List (List Char) := sentAux s false []

/-- `[s.strip() for s in sentences if s.strip()]` from `main.py`. -/
def sentences (s : List Char) : List (List Char) :=
  ((sentSplit s).map pyStrip).filter (fun f => f ≠ [])

/-- The literal label `"Recommendation:"` stripped by `main.py`. -/
def recLabel : List Char := "Recommendation:".toList

/-- The literal label `"Insights:"` stripped by `main.py`. -/
def insLabel : List Char := "Insights:".toList

/-- The cleaning pass of `main.py` step 4:
`full_text = " ".join(text.split())` then
`.replace("Recommendation:", "").replace("Insights:", "").strip()`. -/
def cleanText (s : List Char) : List Char :=
  pyStrip (removeAll insLabel (removeAll recLabel (collapse s)))

/-- The sentences the splitter works with: `re.split` applied to the cleaned
text, fragments stripped, empty fragments dropped. -/
def sentencesOf (s : List Char) : List (List Char) := sentences (cleanText s)

/-- The deterministic recommendation/insights split of
`WeatherAssistant.get_weather_insights` (`main.py` lines 178-199). -/
def splitText (s : List Char) : List Char × List Char :=
  match sentences (cleanText s) with
  | s1 :: s2 :: s3 :: rest => (s1, joinSp (s2 :: s3 :: rest))
  | [s1, s2] => (s1, s2)
  | _ => (cleanText s, [])

/-! ### JSON universe, Python truthiness and rendering -/

mutual
/-- Shallow JSON universe for provider payloads and parsed records.
`null` doubles as Python `None`. -/
inductive Json where
  | null : Json
  | bool (b : Bool) : Json
  | num (n : Int) : Json
  | str (s : List Char) : Json
  | arr (xs : JsonList) : Json
  | obj (fields : JsonFields) : Json
  deriving DecidableEq

/-- Elements of a JSON array. -/
inductive JsonList where
  | nil : JsonList
  | cons (hd : Json) (tl : JsonList) : JsonList
  deriving DecidableEq

/-- Key/value fields of a JSON object (a Python dict). -/
inductive JsonFields where
  | nil : JsonFields
  | cons (key : List Char) (val : Json) (tl : JsonFields) : JsonFields
  deriving DecidableEq
end

/-- Build a JSON array from a list. -/
def JsonList.ofList : List Json → JsonList
  | [] => .nil
  | x :: xs => .cons x (JsonList.ofList xs)

/-- Build a JSON object from an association list. -/
def JsonFields.ofList : List (List Char × Json) → JsonFields
  | [] => .nil
  | (k, v) :: fs => .cons k v (JsonFields.ofList fs)

/-- Emptiness of a JSON array. -/
def JsonList.isEmpty : JsonList → Bool
  | .nil => true
  | .cons _ _ => false

/-- Emptiness of a JSON object. -/
def JsonFields.isEmpty : JsonFields → Bool
  | .nil => true
  | .cons _ _ _ => false

/-- Python dict lookup inside a JSON object (first match; the dicts the
provider sends have unique keys). -/
def JsonFields.lookup : JsonFields → List Char → Option Json
  | .nil, _ => none
  | .cons k v rest, key => if k = key then some v else JsonFields.lookup rest key

/-- Python `v is None`. -/
def Json.isNull : Json → Bool
  | .null => true
  | _ => false

/-- Python truthiness of a JSON value. -/
def pyTruthy : Json → Bool
  | .null => false
  | .bool b => b
  | .num n => n != 0
  | .str s => !s.isEmpty
  | .arr xs => !xs.isEmpty
  | .obj fs => !fs.isEmpty

/-- Python type name, used in `AttributeError`/`TypeError` messages. -/
def pyTypeName : Json → List Char
  | .null => "NoneType".toList
  | .bool _ => "bool".toList
  | .num _ => "int".toList
  | .str _ => "str".toList
  | .arr _ => "list".toList
  | .obj _ => "dict".toList

/-- Decimal digits of a natural number (fuel-based so it reduces in the
kernel). -/
def natDigitsAux : Nat → Nat → List Char
  | 0, _ => []
  | fuel + 1, n =>
    if n < 10 then [Char.ofNat (48 + n)]
    else natDigitsAux fuel (n / 10) ++ [Char.ofNat (48 + n % 10)]

/-- Decimal rendering of a natural number. -/
def natToChars (n : Nat) : List Char := natDigitsAux (n + 1) n

/-- Python `str(i)` for an integer. -/
def intToChars (n : Int) : List Char :=
  if n < 0 then '-' :: natToChars n.natAbs else natToChars n.natAbs

/-- Comma-space join used by Python list/dict rendering. -/
def joinCommaSp : List (List Char) → List Char
  | [] => []
  | [x] => x
  | x :: xs => x ++ ',' :: ' ' :: joinCommaSp xs

mutual
/-- Python `repr(v)` for a JSON value (strings quoted; escaping of quote
characters inside strings is not modelled). -/
def pyRepr : Json → List Char
  | .null => "None".toList
  | .bool true => "True".toList
  | .bool false => "False".toList
  | .num n => intToChars n
  | .str s => Char.ofNat 39 :: (s ++ [Char.ofNat 39])
  | .arr xs => '[' :: (joinCommaSp (pyReprList xs) ++ [']'])
  | .obj fs => Char.ofNat 123 :: (joinCommaSp (pyReprFields fs) ++ [Char.ofNat 125])

/-- `repr` of each element of a JSON array. -/
def pyReprList : JsonList → List (List Char)
  | .nil => []
  | .cons x xs => pyRepr x :: pyReprList xs

/-- `repr(k): repr(v)` of each field of a JSON object. -/
def pyReprFields : JsonFields → List (List Char)
  | .nil => []
  | .cons k v fs =>
      (Char.ofNat 39 :: (k ++ [Char.ofNat 39]) ++ ':' :: ' ' :: pyRepr v) :: pyReprFields fs
end

/-- Python `str(v)` as used by f-string interpolation: like `repr` except
that a top-level string renders without quotes. -/
def pyStr : Json → List Char
  | .str s => s
  | v => pyRepr v

/-! ### Python dict operations -/

/-- Lookup in an association-list dict (keys unique in all dicts the code
builds; first match returned). -/
def dictLookup : List (List Char × Json) → List Char → Option Json
  | [], _ => none
  | (k, v) :: rest, key => if k = key then some v else dictLookup rest key

/-- Python `d.get(key, default)` on an already-known dict. -/
def dictGetD (d : List (List Char × Json)) (key : List Char) (dflt : Json) : Json :=
  (dictLookup d key).getD dflt

/-- Python `v.get(key)` on a JSON value: `AttributeError` unless `v` is a
dict; a missing key yields `None`. -/
def pyGet (v : Json) (key : List Char) : Except (List Char) Json :=
  match v with
  | .obj fs => .ok ((fs.lookup key).getD .null)
  | _ => .error (Char.ofNat 39 :: (pyTypeName v ++ (Char.ofNat 39 :: " object has no attribute 'get'".toList)))

/-- Python `v.get(key, dflt)` on a JSON value. -/
def pyGetD (v : Json) (key : List Char) (dflt : Json) : Except (List Char) Json :=
  match v with
  | .obj fs => .ok ((fs.lookup key).getD dflt)
  | _ => .error (Char.ofNat 39 :: (pyTypeName v ++ (Char.ofNat 39 :: " object has no attribute 'get'".toList)))

/-- Python `v[0]`: list indexing, string indexing, dict lookup of the int
key `0` (always a `KeyError` here since all dict keys are strings), and
`TypeError` otherwise. -/
def pyIndexZero (v : Json) : Except (List Char) Json :=
  match v with
  | .arr (.cons x _) => .ok x
  | .arr .nil => .error "list index out of range".toList
  | .str (c :: _) => .ok (.str [c])
  | .str [] => .error "string index out of range".toList
  | .obj _ => .error "KeyError: 0".toList
  | v => .error (Char.ofNat 39 :: (pyTypeName v ++ (Char.ofNat 39 :: " object is not subscriptable".toList)))

/-! ### `WeatherParser` (`src/utils/parser.py`) -/

/-- Error message of `parse_weather_data` on a falsy payload. -/
def emptyMsg : List Char := "Cannot parse empty or None weather data.".toList

/-- The conditional expression
`weather_list[0] if weather_list else {}` of `parse_weather_data`. -/
def firstWeatherStep (weatherList : Json) : Except (List Char) Json :=
  if pyTruthy weatherList then pyIndexZero weatherList else pure (.obj .nil)

/-- `WeatherParser.parse_weather_data`: fixed-path extraction from the raw
provider payload into the flat parsed dict.  A dynamic Python error
(`AttributeError`, `TypeError`, `KeyError`, `IndexError`) surfaces as
`.error`. -/
def parse_weather_data (raw : Json) : Except (List Char) (List (List Char × Json)) :=
  if pyTruthy raw = false then
    .error emptyMsg
  else do
    let city ← pyGet raw "name".toList
    let sys ← pyGetD raw "sys".toList (.obj .nil)
    let country ← pyGet sys "country".toList
    let mainData ← pyGetD raw "main".toList (.obj .nil)
    let temperature ← pyGet mainData "temp".toList
    let feels_like ← pyGet mainData "feels_like".toList
    let humidity ← pyGet mainData "humidity".toList
    let temp_min ← pyGet mainData "temp_min".toList
    let temp_max ← pyGet mainData "temp_max".toList
    let pressure ← pyGet mainData "pressure".toList
    let weatherList ← pyGetD raw "weather".toList (.arr .nil)
    let firstWeather ← firstWeatherStep weatherList
    let description ← pyGet firstWeather "description".toList
    let weather_main ← pyGet firstWeather "main".toList
    let windData ← pyGetD raw "wind".toList (.obj .nil)
    let wind_speed ← pyGet windData "speed".toList
    let wind_deg ← pyGet windData "deg".toList
    return [("city".toList, city),
            ("country".toList, country),
            ("temperature".toList, temperature),
            ("feels_like".toList, feels_like),
            ("temp_min".toList, temp_min),
            ("temp_max".toList, temp_max),
            ("pressure".toList, pressure),
            ("humidity".toList, humidity),
            ("description".toList, description),
            ("weather_main".toList, weather_main),
            ("wind_speed".toList, wind_speed),
            ("wind_deg".toList, wind_deg)]

/-- The required fields of `WeatherParser.validate_weather_data`. -/
def requiredFields : List (List Char) :=
  ["city".toList, "temperature".toList, "description".toList,
   "humidity".toList, "wind_speed".toList]

/-- The missing-field names `validate_weather_data` collects and logs:
required fields whose value is absent or `None`. -/
def missingFields (wd : List (List Char × Json)) : List (List Char) :=
  requiredFields.filter (fun f => (dictGetD wd f .null).isNull)

/-- `WeatherParser.validate_weather_data`. -/
def validate_weather_data (wd : List (List Char × Json)) : Bool :=
  (missingFields wd).isEmpty

/-- `WeatherParser.format_weather_for_llm`: fixed-layout report block.  The
`.get(key, default)` defaults fire only when a key is absent from the dict;
a key present with value `None` renders via Python `str()`. -/
def format_weather_for_llm (wd : List (List Char × Json)) : List Char :=
  let city := dictGetD wd "city".toList (.str "Unknown City".toList)
  let country := dictGetD wd "country".toList (.str "Unknown Country".toList)
  let temperature := dictGetD wd "temperature".toList (.str "N/A".toList)
  let feels_like := dictGetD wd "feels_like".toList (.str "N/A".toList)
  let description := dictGetD wd "description".toList (.str "N/A".toList)
  let humidity := dictGetD wd "humidity".toList (.str "N/A".toList)
  let wind_speed := dictGetD wd "wind_speed".toList (.str "N/A".toList)
  let temp_min := dictGetD wd "temp_min".toList (.str "N/A".toList)
  let temp_max := dictGetD wd "temp_max".toList (.str "N/A".toList)
  "Current Weather Report\n======================\nLocation    : ".toList ++
  pyStr city ++ ", ".toList ++ pyStr country ++
  "\nCondition   : ".toList ++ pyStr description ++
  "\nTemperature : ".toList ++ pyStr temperature ++ "°C (feels like ".toList ++
  pyStr feels_like ++ "°C)\nRange       : ".toList ++ pyStr temp_min ++
  "°C – ".toList ++ pyStr temp_max ++
  "°C\nHumidity    : ".toList ++ pyStr humidity ++
  "%\nWind Speed  : ".toList ++ pyStr wind_speed ++ " m/s\n".toList

/-! ### `WeatherAPIClient.get_weather` (`src/main.py`) -/

/-- Outcome of the one HTTP request `requests.get(...)` issues, as the
caller observes it: a response with a status code, raw text, and an
optional decoded JSON body (`none` when `response.json()` fails), or one of
the `requests` exceptions. -/
inductive HttpResp where
  | resp (code : Nat) (text : List Char) (json : Option Json)
  | timeout
  | connErr
  | reqErr (msg : List Char)

/-- `WeatherAPIClient.get_weather`: maps provider outcomes to either the
decoded payload or the raised error message (`ValueError`/`RuntimeError`
messages in the source). -/
def get_weather (city : List Char) (h : HttpResp) : Except (List Char) Json :=
  match h with
  | .timeout =>
      .error ("Request timed out while fetching weather for '".toList ++ city ++ "'.".toList)
  | .connErr =>
      .error ("Network connection error for '".toList ++ city ++
              "'. Check your internet connection.".toList)
  | .reqErr m => .error ("Unexpected network error: ".toList ++ m)
  | .resp code text json =>
    if code = 401 then
      .error "Invalid Weather API key (401 Unauthorized). Check your WEATHER_API_KEY.".toList
    else if code = 404 then
      .error ("City '".toList ++ city ++ "' not found (404). Please check the city name.".toList)
    else if code = 429 then
      .error "Weather API rate limit exceeded (429). Please wait and try again.".toList
    else if code ≠ 200 then
      .error ("Weather API returned unexpected status ".toList ++ natToChars code ++
              ": ".toList ++ text)
    else
      match json with
      | some j => .ok j
      | none => .error "Invalid JSON received from Weather API.".toList

/-! ### `LLMClient.generate_insights` and the orchestrator
(`WeatherAssistant.get_weather_insights`) -/

/-- One model call's outcome as `generate_insights` observes it:
`.error` for an exception raised by the client, `.ok none` when
`response.text` is `None`, `.ok (some t)` for returned text `t`. -/
def LLMOutcome := Except (List Char) (Option (List Char))

/-- `LLMClient.generate_insights`: strips the model text, converts empty
output and every client exception into a `RuntimeError` message. -/
def generate_insights (llm : LLMOutcome) : Except (List Char) (List Char) :=
  match llm with
  | .error e => .error ("Failed to generate insights from Gemini: ".toList ++ e)
  | .ok none =>
      .error "Failed to generate insights from Gemini: 'NoneType' object has no attribute 'strip'".toList
  | .ok (some t) =>
      let s := pyStrip t
      if s = [] then
        .error "Failed to generate insights from Gemini: Gemini returned an empty response.".toList
      else .ok s

/-- The fixed placeholder substituted when insight generation fails. -/
def placeholderText : List Char := "Insights unavailable at this time.".toList

/-- `WeatherAssistant.get_weather_insights` (`main.py` lines 157-215):
fetch, parse, generate, split, and assemble the result dict.  Every
collaborator failure is caught as in the source; the function is total. -/
def get_weather_insights (city : List Char) (http : HttpResp) (llm : LLMOutcome) :
    List (List Char × Json) :=
  match get_weather city http with
  | .error e => [("city".toList, .str city), ("error".toList, .str e)]
  | .ok rawData =>
    match parse_weather_data rawData with
    | .error e =>
        [("city".toList, .str city),
         ("error".toList, .str ("Failed to parse weather data: ".toList ++ e))]
    | .ok parsed =>
      let insightsText :=
        match generate_insights llm with
        | .error _ => placeholderText
        | .ok t => t
      let split := splitText insightsText
      [("city".toList, dictGetD parsed "city".toList .null),
       ("country".toList, dictGetD parsed "country".toList .null),
       ("temperature".toList, dictGetD parsed "temperature".toList .null),
       ("feels_like".toList, dictGetD parsed "feels_like".toList .null),
       ("description".toList, dictGetD parsed "description".toList .null),
       ("humidity".toList, dictGetD parsed "humidity".toList .null),
       ("wind_speed".toList, dictGetD parsed "wind_speed".toList .null),
       ("recommendation".toList, .str split.1),
       ("insights".toList, .str split.2)]

/-- The keys of a result dict, in construction order. -/
def dictKeys (d : List (List Char × Json)) : List (List Char) := d.map Prod.fst

/-! ### Classifier-output routing (`main.py` `main`, `backend/api.py` `chat`) -/

/-- The literal classifier prefix `"WEATHER:"`. -/
def weatherLabel : List Char := "WEATHER:".toList

/-- The literal classifier prefix `"CHAT:"`. -/
def chatLabel : List Char := "CHAT:".toList

/-- `response_text.replace("WEATHER:", "").strip()`: the city actually used
for the weather fetch on the `WEATHER:` branch. -/
def extractCity (respText : List Char) : List Char :=
  pyStrip (removeAll weatherLabel respText)

/-- Which path a user turn takes after the classifier call. -/
inductive Route where
  | weatherPath (city : List Char)
  | chatReply (text : List Char)
  deriving DecidableEq

/-- The shared dispatch of `main.py` lines 277-320 and `backend/api.py`
lines 161-224: prefix match on the (already stripped) classifier output,
with the short-utterance fallback. -/
def classifyRoute (utterance respText : List Char) : Route :=
  if weatherLabel.isPrefixOf respText then
    .weatherPath (extractCity respText)
  else if chatLabel.isPrefixOf respText then
    .chatReply (pyStrip (removeAll chatLabel respText))
  else if (pySplit utterance).length ≤ 3 then
    .weatherPath utterance
  else
    .chatReply respText

/-! ### Supporting definitions for the verification -/

/-- Keys of the error-shaped result of `get_weather_insights`. -/
def errKeys : List (List Char) := ["city".toList, "error".toList]

/-- Keys of the success-shaped result of `get_weather_insights`, in
construction order. -/
def okKeys : List (List Char) :=
  ["city".toList, "country".toList, "temperature".toList, "feels_like".toList,
   "description".toList, "humidity".toList, "wind_speed".toList,
   "recommendation".toList, "insights".toList]

/-- Keys of the parsed record `parse_weather_data` builds, in construction
order. -/
def parsedKeys : List (List Char) :=
  ["city".toList, "country".toList, "temperature".toList, "feels_like".toList,
   "temp_min".toList, "temp_max".toList, "pressure".toList, "humidity".toList,
   "description".toList, "weather_main".toList, "wind_speed".toList,
   "wind_deg".toList]

/-- A sub-object field is usable by `parse_weather_data` when absent or an
object (`.get` is only defined on dicts). -/
def fieldIsObj : Option Json → Bool
  | none => true
  | some (.obj _) => true
  | some _ => false

/-- The `"weather"` field is usable when absent, falsy, or a list whose
first element is an object. -/
def weatherFieldOk : Option Json → Bool
  | none => true
  | some v =>
    if pyTruthy v then
      match v with
      | .arr (.cons (.obj _) _) => true
      | _ => false
    else true

/-- A payload has the provider's shape: when truthy it is a dict, and the
`sys`/`main`/`wind`/`weather` fields, if present, have the expected types. -/
def wellTypedPayload : Json → Bool
  | .obj fs =>
      fieldIsObj (fs.lookup "sys".toList) && fieldIsObj (fs.lookup "main".toList) &&
      fieldIsObj (fs.lookup "wind".toList) && weatherFieldOk (fs.lookup "weather".toList)
  | v => !pyTruthy v

/-- A representative full provider payload for London. -/
def goodResp : Json := .obj (.ofList
  [("name".toList, .str "London".toList),
   ("sys".toList, .obj (.ofList [("country".toList, .str "GB".toList)])),
   ("main".toList, .obj (.ofList
     [("temp".toList, .num 15), ("feels_like".toList, .num 14),
      ("humidity".toList, .num 72), ("temp_min".toList, .num 12),
      ("temp_max".toList, .num 17), ("pressure".toList, .num 1012)])),
   ("weather".toList, .arr (.cons (.obj (.ofList
     [("description".toList, .str "light rain".toList),
      ("main".toList, .str "Rain".toList)])) .nil)),
   ("wind".toList, .obj (.ofList
     [("speed".toList, .num 4), ("deg".toList, .num 120)]))])

/-- A payload carrying only a city name: every other parsed field is null. -/
def rawParis : Json := .obj (.cons "name".toList (.str "Paris".toList) .nil)

/-- A truthy payload whose `"weather"` field is a number: indexing it
raises a `TypeError` inside `parse_weather_data`. -/
def rawBadWeather : Json := .obj (.cons "weather".toList (.num 1) .nil)

/-! ### Word-level view of canonical (whitespace-collapsed) texts, used to
reason about the sentence splitter -/

/-- A word contains no whitespace. -/
def NoSp (w : List Char) : Prop := ∀ c ∈ w, isSpace c = false

/-- Every word is non-empty and whitespace-free (true of `pySplit`
output). -/
def GoodWords (ws : List (List Char)) : Prop := ∀ w ∈ ws, w ≠ [] ∧ NoSp w

/-- Whether a word ends in sentence-terminal punctuation. -/
def endsPunct (w : List Char) : Bool := headPunct w.reverse

/-- Whether the most recently read word of the reversed open group ends in
sentence-terminal punctuation. -/
def headEndsPunct : List (List Char) → Bool
  | x :: _ => endsPunct x
  | [] => false

/-- Word-level sentence grouping: close the open group (kept reversed)
before a word exactly when the previous word ends in punctuation — the
word-level mirror of the splitter regex on canonical text. -/
def sentWordsAux : List (List Char) → List (List Char) → List (List (List Char))
  | [], g => [g.reverse]
  | w :: ws, g =>
    if headEndsPunct g then g.reverse :: sentWordsAux ws [w]
    else sentWordsAux ws (w :: g)

/-- Word-level sentence grouping of a word list. -/
def sentWords : List (List Char) → List (List (List Char))
  | [] => []
  | w :: ws => sentWordsAux ws [w]

/-- `joinSp` preceded by a separator when the list is non-empty. -/
def sepJoinSp : List (List Char) → List Char
  | [] => []
  | w :: ws => ' ' :: joinSp (w :: ws)

/-! ## Helper lemmas -/

/-- `Except` bind succeeds exactly when both stages succeed. -/
theorem exceptBind_eq_ok {ε α β : Type} {x : Except ε α} {f : α → Except ε β} {b : β} :
    x >>= f = .ok b ↔ ∃ a, x = .ok a ∧ f a = .ok b := by
  cases x <;> simp [Bind.bind, Except.bind]

/-- `removeAllAux` is the identity when the pattern never occurs. -/
theorem removeAllAux_eq_self {pat : List Char} :
    ∀ s, ¬ pat <:+: s → removeAllAux pat s 0 = s := by
  intro s
  induction s with
  | nil => intro _; rfl
  | cons c cs ih =>
    intro h
    have hpre : pat.isPrefixOf (c :: cs) = false := by
      rw [← Bool.not_eq_true, List.isPrefixOf_iff_prefix]
      exact fun hp => h hp.isInfix
    simp only [removeAllAux, hpre, Bool.false_eq_true, if_false]
    rw [ih (fun hi => h (List.infix_cons hi))]

/-- `removeAllAux` with counter `u.length` skips over `u`. -/
theorem removeAllAux_skip (pat : List Char) :
    ∀ (u rest : List Char), removeAllAux pat (u ++ rest) u.length = removeAllAux pat rest 0 := by
  intro u
  induction u with
  | nil => intro rest; rfl
  | cons x u ih => intro rest; simpa only [List.cons_append, List.length_cons, removeAllAux] using ih rest

/-- Removing a non-empty pattern from a string that starts with it deletes
that occurrence and continues after it. -/
theorem removeAll_leading_label {pat rest : List Char} (hpat : pat ≠ []) :
    removeAll pat (pat ++ rest) = removeAllAux pat rest 0 := by
  obtain ⟨p, pt, rfl⟩ : ∃ p pt, pat = p :: pt := by
    cases pat with
    | nil => exact absurd rfl hpat
    | cons p pt => exact ⟨_, _, rfl⟩
  unfold removeAll
  rw [List.cons_append]
  simp only [removeAllAux]
  split
  · have hlen : (p :: pt).length - 1 = pt.length := by simp
    rw [hlen]
    exact removeAllAux_skip _ pt rest
  · rename_i hc
    exact absurd (List.isPrefixOf_iff_prefix.mpr (List.prefix_append _ _)) hc

/-- `pure` on `Except` succeeds with exactly its argument. -/
theorem exceptPure_eq_ok {ε α : Type} {a b : α} : (pure a : Except ε α) = .ok b ↔ a = b :=
  ⟨fun h => Except.ok.inj h, fun h => congrArg Except.ok h⟩

/-- A field accepted by `fieldIsObj` defaults to an object. -/
theorem fieldIsObj_getD {o : Option Json} (h : fieldIsObj o = true) :
    ∃ g, o.getD (.obj .nil) = .obj g := by
  cases o with
  | none => exact ⟨.nil, rfl⟩
  | some v =>
    cases v with
    | obj g => exact ⟨g, rfl⟩
    | null => exact Bool.noConfusion h
    | bool b => exact Bool.noConfusion h
    | num n => exact Bool.noConfusion h
    | str s => exact Bool.noConfusion h
    | arr a => exact Bool.noConfusion h

/-- A field accepted by `weatherFieldOk` makes the first-element step of
`parse_weather_data` produce an object. -/
theorem weatherOk_getD {o : Option Json} (h : weatherFieldOk o = true) :
    ∃ fg, firstWeatherStep (o.getD (.arr .nil)) = Except.ok (Json.obj fg) := by
  cases o with
  | none => exact ⟨.nil, rfl⟩
  | some v =>
    simp only [weatherFieldOk] at h
    simp only [Option.getD]
    unfold firstWeatherStep
    by_cases htv : pyTruthy v = true
    · rw [if_pos htv] at h ⊢
      cases v with
      | arr xs =>
        cases xs with
        | nil => exact Bool.noConfusion htv
        | cons hd tl =>
          cases hd with
          | obj g => exact ⟨g, rfl⟩
          | null => exact Bool.noConfusion h
          | bool b => exact Bool.noConfusion h
          | num n => exact Bool.noConfusion h
          | str s => exact Bool.noConfusion h
          | arr a => exact Bool.noConfusion h
      | null => exact Bool.noConfusion h
      | bool b => exact Bool.noConfusion h
      | num n => exact Bool.noConfusion h
      | str s => exact Bool.noConfusion h
      | obj g => exact Bool.noConfusion h
    · rw [if_neg htv]
      exact ⟨.nil, rfl⟩

/-- Explicit success form of `parse_weather_data` on a non-empty dict
payload whose sub-objects resolve as given. -/
theorem parse_obj_ok {fs : JsonFields} (hne : fs.isEmpty = false)
    (sg mg wg fg : JsonFields)
    (hsg : (fs.lookup "sys".toList).getD (.obj .nil) = .obj sg)
    (hmg : (fs.lookup "main".toList).getD (.obj .nil) = .obj mg)
    (hwg : (fs.lookup "wind".toList).getD (.obj .nil) = .obj wg)
    (hfg : firstWeatherStep ((fs.lookup "weather".toList).getD (.arr .nil)) =
      Except.ok (Json.obj fg)) :
    parse_weather_data (.obj fs) = .ok
      [("city".toList, (fs.lookup "name".toList).getD .null),
       ("country".toList, (sg.lookup "country".toList).getD .null),
       ("temperature".toList, (mg.lookup "temp".toList).getD .null),
       ("feels_like".toList, (mg.lookup "feels_like".toList).getD .null),
       ("temp_min".toList, (mg.lookup "temp_min".toList).getD .null),
       ("temp_max".toList, (mg.lookup "temp_max".toList).getD .null),
       ("pressure".toList, (mg.lookup "pressure".toList).getD .null),
       ("humidity".toList, (mg.lookup "humidity".toList).getD .null),
       ("description".toList, (fg.lookup "description".toList).getD .null),
       ("weather_main".toList, (fg.lookup "main".toList).getD .null),
       ("wind_speed".toList, (wg.lookup "speed".toList).getD .null),
       ("wind_deg".toList, (wg.lookup "deg".toList).getD .null)] := by
  unfold parse_weather_data
  rw [if_neg (by simp [pyTruthy, hne])]
  simp only [exceptBind_eq_ok, exceptPure_eq_ok]
  exact ⟨_, rfl, .obj sg, congrArg Except.ok hsg, _, rfl, .obj mg, congrArg Except.ok hmg,
         _, rfl, _, rfl, _, rfl, _, rfl, _, rfl, _, rfl,
         _, rfl, .obj fg, hfg, _, rfl, _, rfl, .obj wg, congrArg Except.ok hwg,
         _, rfl, _, rfl, rfl⟩

/-- Every successful parse yields the literal 12-field record. -/
theorem parse_ok_shape {raw : Json} {parsed : List (List Char × Json)}
    (h : parse_weather_data raw = .ok parsed) :
    ∃ c co te fe tmi tma pr hu de wm ws wd, parsed =
      [("city".toList, c), ("country".toList, co), ("temperature".toList, te),
       ("feels_like".toList, fe), ("temp_min".toList, tmi), ("temp_max".toList, tma),
       ("pressure".toList, pr), ("humidity".toList, hu), ("description".toList, de),
       ("weather_main".toList, wm), ("wind_speed".toList, ws), ("wind_deg".toList, wd)] := by
  unfold parse_weather_data at h
  split at h
  · exact absurd h (by simp)
  · simp only [exceptBind_eq_ok, exceptPure_eq_ok] at h
    obtain ⟨c, -, sys, -, co, -, md, -, te, -, fe, -, hu, -, tmi, -, tma, -, pr, -,
            wl, -, fw, -, de, -, wm, -, wind, -, ws, -, wd, -, hfin⟩ := h
    exact ⟨c, co, te, fe, tmi, tma, pr, hu, de, wm, ws, wd, hfin.symm⟩

/-! ### `joinSp` and `pyStrip` lemmas -/

/-- `joinSp` over a cons with non-empty tail. -/
theorem joinSp_cons {l : List (List Char)} (hl : l ≠ []) (w : List Char) :
    joinSp (w :: l) = w ++ ' ' :: joinSp l := by
  cases l with
  | nil => exact absurd rfl hl
  | cons x xs => rfl

/-- `joinSp` over a cons, via `sepJoinSp`. -/
theorem joinSp_sep (w : List Char) (l : List (List Char)) :
    joinSp (w :: l) = w ++ sepJoinSp l := by
  cases l with
  | nil => simp [joinSp, sepJoinSp]
  | cons x xs => rfl

/-- `joinSp` distributes over append of non-empty lists. -/
theorem joinSp_append : ∀ {A : List (List Char)}, A ≠ [] → ∀ {B : List (List Char)}, B ≠ [] →
    joinSp (A ++ B) = joinSp A ++ ' ' :: joinSp B := by
  intro A
  induction A with
  | nil => intro hA; exact absurd rfl hA
  | cons a A ih =>
    intro _ B hB
    cases A with
    | nil => rw [List.singleton_append, joinSp_cons hB]; rfl
    | cons a2 A2 =>
      rw [List.cons_append, joinSp_cons (by simp), joinSp_cons (by simp),
        ih (by simp) hB]
      simp [List.append_assoc]

/-- `joinSp` with a final singleton. -/
theorem joinSp_concat {A : List (List Char)} (hA : A ≠ []) (x : List Char) :
    joinSp (A ++ [x]) = joinSp A ++ ' ' :: x := by
  rw [joinSp_append hA (by simp)]
  rfl

/-- Head of an append with non-empty left part. -/
theorem headq_append {w r : List Char} (hw : w ≠ []) : (w ++ r).head? = w.head? := by
  cases w with
  | nil => exact absurd rfl hw
  | cons c cs => rfl

/-- The first character of `joinSp` over good words is not whitespace. -/
theorem joinSp_head {ws : List (List Char)} (hws : ws ≠ []) (hgw : GoodWords ws) :
    ∀ c ∈ (joinSp ws).head?, isSpace c = false := by
  cases ws with
  | nil => exact absurd rfl hws
  | cons w l =>
    have hw := hgw w (by simp)
    intro c hc
    rw [joinSp_sep, headq_append hw.1] at hc
    exact hw.2 c (List.mem_of_mem_head? hc)

/-- The last character of `joinSp` over good words is not whitespace. -/
theorem joinSp_revhead : ∀ {ws : List (List Char)}, ws ≠ [] → GoodWords ws →
    ∀ c ∈ (joinSp ws).reverse.head?, isSpace c = false := by
  intro ws hws hgw c hc
  rcases List.eq_nil_or_concat ws with rfl | ⟨A, x, rfl⟩
  · exact absurd rfl hws
  · rw [List.concat_eq_append] at hgw hc
    have hx := hgw x (by simp)
    have hxr : (x.reverse : List Char) ≠ [] := by simpa using hx.1
    by_cases hA0 : A = []
    · subst hA0
      rw [List.nil_append, show joinSp [x] = x from rfl] at hc
      exact hx.2 c (List.mem_reverse.mp (List.mem_of_mem_head? hc))
    · rw [joinSp_concat hA0, List.reverse_append, List.reverse_cons,
        List.append_assoc, headq_append hxr] at hc
      exact hx.2 c (List.mem_reverse.mp (List.mem_of_mem_head? hc))

/-- `joinSp` over a non-empty list of good words is non-empty. -/
theorem joinSp_ne_nil {ws : List (List Char)} (hws : ws ≠ []) (hgw : GoodWords ws) :
    joinSp ws ≠ [] := by
  cases ws with
  | nil => exact absurd rfl hws
  | cons w l =>
    rw [joinSp_sep]
    have hw := (hgw w (by simp)).1
    intro h
    exact hw (List.append_eq_nil.mp h).1

/-- `pyStrip` is the identity when neither end is whitespace. -/
theorem pyStrip_noop {s : List Char}
    (h1 : ∀ c ∈ s.head?, isSpace c = false)
    (h2 : ∀ c ∈ s.reverse.head?, isSpace c = false) : pyStrip s = s := by
  unfold pyStrip
  have hd : s.dropWhile isSpace = s := by
    cases s with
    | nil => rfl
    | cons c cs =>
      rw [List.dropWhile_cons, h1 c rfl]
      simp
  rw [hd]
  have hr : s.reverse.dropWhile isSpace = s.reverse := by
    cases hs : s.reverse with
    | nil => rfl
    | cons c cs =>
      rw [List.dropWhile_cons, h2 c (by rw [hs]; rfl)]
      simp
  rw [hr, List.reverse_reverse]

/-! ### `pySplit` lemmas -/

/-- Scanning a whitespace-free word accumulates it. -/
theorem pySplitAux_word : ∀ {w : List Char}, NoSp w →
    ∀ (s acc : List Char), pySplitAux (w ++ s) acc = pySplitAux s (w.reverse ++ acc) := by
  intro w
  induction w with
  | nil => intro _ s acc; rfl
  | cons c cs ih =>
    intro hw s acc
    have hc : isSpace c = false := hw c (by simp)
    rw [List.cons_append]
    simp only [pySplitAux, hc, Bool.false_eq_true, if_false]
    rw [ih (fun x hx => hw x (by simp [hx])) s (c :: acc), List.reverse_cons,
      List.append_assoc]
    rfl

/-- `pySplit` of a single word. -/
theorem pySplit_word {w : List Char} (hw0 : w ≠ []) (hw : NoSp w) : pySplit w = [w] := by
  have h := pySplitAux_word hw [] ([] : List Char)
  rw [List.append_nil] at h
  unfold pySplit
  rw [h]
  simp [pySplitAux, hw0]

/-- `pySplit` of a word, a space, and a remainder. -/
theorem pySplit_word_cons {w : List Char} (hw0 : w ≠ []) (hw : NoSp w) (s : List Char) :
    pySplit (w ++ ' ' :: s) = w :: pySplit s := by
  unfold pySplit
  rw [pySplitAux_word hw]
  simp only [List.append_nil, pySplitAux, show isSpace ' ' = true from rfl, if_true,
    List.reverse_eq_nil_iff, hw0, if_false, List.reverse_reverse]

/-- `pySplit` recovers the word list from its single-space join. -/
theorem pySplit_joinSp : ∀ {ws : List (List Char)}, GoodWords ws →
    pySplit (joinSp ws) = ws := by
  intro ws
  induction ws with
  | nil => intro _; rfl
  | cons w l ih =>
    intro hgw
    have hw := hgw w (by simp)
    cases l with
    | nil => simpa [joinSp] using pySplit_word hw.1 hw.2
    | cons x xs =>
      rw [joinSp_cons (by simp), pySplit_word_cons hw.1 hw.2,
        ih (fun y hy => hgw y (by simp [hy]))]

/-- The words of a split are non-empty and whitespace-free. -/
theorem goodWords_pySplitAux : ∀ (s acc : List Char), NoSp acc →
    GoodWords (pySplitAux s acc) := by
  intro s
  induction s with
  | nil =>
    intro acc hacc
    by_cases h : acc = []
    · simp [pySplitAux, h, GoodWords]
    · simp only [pySplitAux, h, if_false]
      intro w hw
      rw [List.mem_singleton] at hw
      subst hw
      exact ⟨by simpa using h, fun c hc => hacc c (by simpa using hc)⟩
  | cons c cs ih =>
    intro acc hacc
    simp only [pySplitAux]
    by_cases hc : isSpace c = true
    · rw [if_pos hc]
      by_cases ha : acc = []
      · rw [if_pos ha]
        exact ih [] (fun x hx => absurd hx (List.not_mem_nil x))
      · rw [if_neg ha]
        intro w hw
        rcases List.mem_cons.mp hw with rfl | hw
        · exact ⟨by simpa using ha, fun x hx => hacc x (by simpa using hx)⟩
        · exact ih [] (fun x hx => absurd hx (List.not_mem_nil x)) w hw
    · have hc' : isSpace c = false := by simpa using hc
      rw [hc']
      simp only [Bool.false_eq_true, if_false]
      refine ih (c :: acc) ?_
      intro x hx
      rcases List.mem_cons.mp hx with rfl | hx
      · exact hc'
      · exact hacc x hx

/-- Every word of a split is an infix of the scanned text. -/
theorem pySplitAux_word_infix : ∀ (s acc : List Char) (w : List Char),
    w ∈ pySplitAux s acc → w <:+: (acc.reverse ++ s) := by
  intro s
  induction s with
  | nil =>
    intro acc w hw
    by_cases h : acc = []
    · simp [pySplitAux, h] at hw
    · simp only [pySplitAux, h, if_false, List.mem_singleton] at hw
      subst hw
      simp
  | cons c cs ih =>
    intro acc w hw
    simp only [pySplitAux] at hw
    by_cases hc : isSpace c = true
    · rw [if_pos hc] at hw
      by_cases ha : acc = []
      · rw [if_pos ha] at hw
        have h := ih [] w hw
        simp only [List.reverse_nil, List.nil_append] at h
        exact h.trans (((List.suffix_cons c cs).trans (List.suffix_append _ _)).isInfix)
      · rw [if_neg ha] at hw
        rcases List.mem_cons.mp hw with rfl | hw
        · exact ⟨[], c :: cs, by simp⟩
        · have h := ih [] w hw
          simp only [List.reverse_nil, List.nil_append] at h
          exact h.trans (((List.suffix_cons c cs).trans (List.suffix_append _ _)).isInfix)
    · have hc' : isSpace c = false := by simpa using hc
      rw [hc'] at hw
      simp only [Bool.false_eq_true, if_false] at hw
      have h := ih (c :: acc) w hw
      rw [List.reverse_cons, List.append_assoc] at h
      exact h

/-- A trailing space does not change `pySplitAux`. -/
theorem pySplitAux_trailing : ∀ (s acc : List Char),
    pySplitAux (s ++ [' ']) acc = pySplitAux s acc := by
  intro s
  induction s with
  | nil =>
    intro acc
    by_cases h : acc = [] <;>
      simp [pySplitAux, h, show isSpace ' ' = true from rfl]
  | cons c cs ih =>
    intro acc
    have ih2 : ∀ acc2, pySplitAux (cs.append [' ']) acc2 = pySplitAux cs acc2 := ih
    rw [List.cons_append]
    simp only [pySplitAux, ih, ih2]

/-! ### Label occurrences survive collapsing -/

/-- A pattern avoiding `c` that is a prefix of `u ++ c :: v` is a prefix
of `u`. -/
theorem prefix_drop_sep {c : Char} : ∀ {pat u v : List Char}, c ∉ pat →
    pat <+: u ++ c :: v → pat <+: u := by
  intro pat
  induction pat with
  | nil => intro u v _ _; exact List.nil_prefix
  | cons p pt ih =>
    intro u v hc hp
    cases u with
    | nil =>
      obtain ⟨t, ht⟩ := hp
      rw [List.nil_append, List.cons_append] at ht
      injection ht with h1 _
      exact absurd (h1 ▸ List.mem_cons_self p pt) hc
    | cons a u2 =>
      obtain ⟨t, ht⟩ := hp
      rw [List.cons_append, List.cons_append] at ht
      injection ht with h1 h2
      subst h1
      obtain ⟨t2, ht2⟩ := ih (fun hm => hc (List.mem_cons_of_mem _ hm)) ⟨t, h2⟩
      exact ⟨t2, by rw [List.cons_append, ht2]⟩

/-- A pattern avoiding `c` that is an infix of `u ++ c :: v` is an infix
of `u` or of `v`. -/
theorem infix_drop_sep {c : Char} {pat : List Char} :
    ∀ (u v : List Char), c ∉ pat → pat <:+: u ++ c :: v →
      pat <:+: u ∨ pat <:+: v := by
  intro u
  induction u with
  | nil =>
    intro v hc h
    rw [List.nil_append] at h
    rcases List.infix_cons_iff.mp h with hp | hi
    · cases pat with
      | nil => exact Or.inl ⟨[], [], rfl⟩
      | cons p pt =>
        obtain ⟨t, ht⟩ := hp
        rw [List.cons_append] at ht
        injection ht with h1 _
        exact absurd (h1 ▸ List.mem_cons_self _ _) hc
    · exact Or.inr hi
  | cons a u2 ih =>
    intro v hc h
    rw [List.cons_append] at h
    rcases List.infix_cons_iff.mp h with hp | hi
    · exact Or.inl (prefix_drop_sep hc (by rwa [List.cons_append])).isInfix
    · rcases ih v hc hi with h1 | h2
      · exact Or.inl (List.infix_cons h1)
      · exact Or.inr h2

/-- A non-empty whitespace-free infix of a single-space join lies inside
one of the words. -/
theorem infix_joinSp {pat : List Char} (hp0 : pat ≠ []) (hps : NoSp pat) :
    ∀ {ws : List (List Char)}, GoodWords ws → pat <:+: joinSp ws →
      ∃ w ∈ ws, pat <:+: w := by
  have hcp : ' ' ∉ pat := fun hm => absurd (hps ' ' hm) (by decide)
  intro ws
  induction ws with
  | nil =>
    intro _ h
    exact absurd (List.infix_nil.mp h) hp0
  | cons w l ih =>
    intro hgw h
    cases l with
    | nil => exact ⟨w, by simp, by simpa [joinSp] using h⟩
    | cons x xs =>
      rw [joinSp_cons (by simp)] at h
      rcases infix_drop_sep _ _ hcp h with h1 | h2
      · exact ⟨w, by simp, h1⟩
      · obtain ⟨w2, hw2, hinf⟩ := ih (fun y hy => hgw y (by simp [hy])) h2
        exact ⟨w2, by simp [hw2], hinf⟩

/-- Whitespace collapsing cannot create a whitespace-free label. -/
theorem no_label_collapse {pat t : List Char} (hp0 : pat ≠ []) (hps : NoSp pat)
    (h : ¬ pat <:+: t) : ¬ pat <:+: collapse t := by
  intro hc
  obtain ⟨w, hw, hinf⟩ :=
    infix_joinSp hp0 hps (goodWords_pySplitAux t [] (fun x hx => absurd hx (List.not_mem_nil x))) hc
  have hwt : w <:+: t := by
    have h2 := pySplitAux_word_infix t [] w hw
    simpa using h2
  exact h (hinf.trans hwt)

/-- `removeAll` is the identity when the pattern never occurs. -/
theorem removeAll_eq_self {pat s : List Char} (h : ¬ pat <:+: s) :
    removeAll pat s = s :=
  removeAllAux_eq_self s h

/-- The cleaning pass on a text whose collapse is label-free is exactly
the collapse. -/
theorem cleanText_of_pySplit {t : List Char} {ws : List (List Char)}
    (hws : pySplit t = ws) (hgw : GoodWords ws)
    (h1 : ¬ recLabel <:+: joinSp ws) (h2 : ¬ insLabel <:+: joinSp ws) :
    cleanText t = joinSp ws := by
  unfold cleanText collapse
  rw [hws, removeAll_eq_self h1, removeAll_eq_self h2]
  by_cases hnil : ws = []
  · subst hnil; rfl
  · exact pyStrip_noop (joinSp_head hnil hgw) (joinSp_revhead hnil hgw)

/-! ### The sentence splitter on canonical text -/

/-- Scanning a whitespace-free word never splits. -/
theorem sentAux_word : ∀ {w : List Char}, NoSp w →
    ∀ (s frag : List Char), sentAux (w ++ s) false frag = sentAux s false (w.reverse ++ frag) := by
  intro w
  induction w with
  | nil => intro _ s frag; rfl
  | cons c cs ih =>
    intro hw s frag
    have hc : isSpace c = false := hw c (by simp)
    rw [List.cons_append]
    simp only [sentAux, hc, Bool.false_and, Bool.false_eq_true, if_false]
    rw [ih (fun x hx => hw x (by simp [hx])) s (c :: frag), List.reverse_cons,
      List.append_assoc]
    rfl

/-- A non-empty word ends separator-skipping mode and starts the next
fragment. -/
theorem sentAux_skip_word {w : List Char} (hw0 : w ≠ []) (hw : NoSp w) :
    ∀ (s frag : List Char), sentAux (w ++ s) true frag = sentAux s false w.reverse := by
  cases w with
  | nil => exact absurd rfl hw0
  | cons c cs =>
    intro s frag
    have hc : isSpace c = false := hw c (by simp)
    rw [List.cons_append]
    simp only [sentAux, hc, Bool.false_eq_true, if_false]
    rw [sentAux_word (fun x hx => hw x (by simp [hx])) s [c], List.reverse_cons]

/-- `headPunct` only looks at the first part of an append. -/
theorem headPunct_append {a : List Char} (b : List Char) (ha : a ≠ []) :
    headPunct (a ++ b) = headPunct a := by
  cases a with
  | nil => exact absurd rfl ha
  | cons c cs => rfl

/-- The character before the scan position is punctuation exactly when the
most recent word of the open group ends in punctuation. -/
theorem frag_headPunct {g : List (List Char)} (hg : g ≠ []) (hgw : GoodWords g) :
    headPunct ((joinSp g.reverse).reverse) = headEndsPunct g := by
  cases g with
  | nil => exact absurd rfl hg
  | cons x g2 =>
    have hx := hgw x (by simp)
    rw [List.reverse_cons]
    by_cases hg2 : g2 = []
    · subst hg2
      simp only [List.reverse_nil, List.nil_append]
      rw [show joinSp [x] = x from rfl]
      rfl
    · have hg2r : (g2.reverse : List (List Char)) ≠ [] := by simpa using hg2
      rw [joinSp_concat hg2r, List.reverse_append, List.reverse_cons,
        List.append_assoc, headPunct_append _ (by simpa using hx.1)]
      rfl

/-- The word-level grouping never returns an empty list of groups. -/
theorem sentWordsAux_ne_nil : ∀ (ws g : List (List Char)), sentWordsAux ws g ≠ [] := by
  intro ws
  induction ws with
  | nil => intro g; simp [sentWordsAux]
  | cons w l ih =>
    intro g
    simp only [sentWordsAux]
    split
    · simp
    · exact ih (w :: g)

/-- The splitter on the single-space join mirrors the word-level grouping,
with an open group carried in the fragment accumulator. -/
theorem sentAux_groups : ∀ (ws : List (List Char)), GoodWords ws →
    ∀ (g : List (List Char)), GoodWords g → g ≠ [] →
    sentAux (sepJoinSp ws) false ((joinSp g.reverse).reverse) =
      (sentWordsAux ws g).map joinSp := by
  intro ws
  induction ws with
  | nil =>
    intro _ g _ _
    simp [sepJoinSp, sentAux, sentWordsAux]
  | cons w l ih =>
    intro hws g hg hg0
    have hw := hws w (by simp)
    have hl : GoodWords l := fun y hy => hws y (by simp [hy])
    have hgw1 : GoodWords [w] := by
      intro y hy
      rw [List.mem_singleton] at hy
      subst hy
      exact hw
    have hsep : sepJoinSp (w :: l) = ' ' :: (w ++ sepJoinSp l) := by
      rw [show sepJoinSp (w :: l) = ' ' :: joinSp (w :: l) from rfl, joinSp_sep]
    rw [hsep]
    simp only [sentAux, show isSpace ' ' = true from rfl, Bool.true_and]
    rw [frag_headPunct hg0 hg]
    by_cases hpe : headEndsPunct g = true
    · simp only [hpe, if_true]
      rw [sentAux_skip_word hw.1 hw.2]
      rw [show (w.reverse : List Char) = (joinSp (([w] : List (List Char)).reverse)).reverse by simp [joinSp]]
      rw [ih hl [w] hgw1 (by simp)]
      simp [sentWordsAux, hpe]
    · have hpe2 : headEndsPunct g = false := by simpa using hpe
      simp only [hpe2, Bool.false_eq_true, if_false]
      rw [sentAux_word hw.2]
      have hfr : (w.reverse : List Char) ++ ' ' :: (joinSp g.reverse).reverse =
          (joinSp ((w :: g).reverse)).reverse := by
        rw [List.reverse_cons, joinSp_concat (by simpa using hg0),
          List.reverse_append, List.reverse_cons, List.append_assoc]
        rfl
      rw [hfr]
      rw [ih hl (w :: g) ?_ (by simp)]
      · simp [sentWordsAux, hpe2]
      · intro y hy
        rcases List.mem_cons.mp hy with rfl | hy
        · exact hw
        · exact hg y hy

/-- The sentence splitter on a non-empty single-space join of good words
produces exactly the joined word groups. -/
theorem sentSplit_joinSp {ws : List (List Char)} (hgw : GoodWords ws) (h0 : ws ≠ []) :
    sentSplit (joinSp ws) = (sentWords ws).map joinSp := by
  cases ws with
  | nil => exact absurd rfl h0
  | cons w l =>
    have hw := hgw w (by simp)
    unfold sentSplit
    rw [joinSp_sep]
    rw [sentAux_word hw.2]
    rw [List.append_nil]
    rw [show (w.reverse : List Char) = (joinSp (([w] : List (List Char)).reverse)).reverse by simp [joinSp]]
    rw [sentAux_groups l (fun y hy => hgw y (by simp [hy])) [w]
      (by intro y hy; rw [List.mem_singleton] at hy; rw [hy]; exact hw) (by simp)]
    rfl

/-- Groups produced by the word-level grouping are non-empty lists of good
words. -/
theorem sentWordsAux_good : ∀ (ws : List (List Char)), GoodWords ws →
    ∀ (g : List (List Char)), GoodWords g → g ≠ [] →
    ∀ grp ∈ sentWordsAux ws g, grp ≠ [] ∧ GoodWords grp := by
  intro ws
  induction ws with
  | nil =>
    intro _ g hg hg0 grp hgrp
    rw [show sentWordsAux [] g = [g.reverse] from rfl, List.mem_singleton] at hgrp
    subst hgrp
    exact ⟨by simpa using hg0, fun y hy => hg y (by simpa using hy)⟩
  | cons w l ih =>
    intro hws g hg hg0 grp hgrp
    have hw := hws w (by simp)
    have hl : GoodWords l := fun y hy => hws y (by simp [hy])
    have hgw1 : GoodWords [w] := by
      intro y hy
      rw [List.mem_singleton] at hy
      subst hy
      exact hw
    simp only [sentWordsAux] at hgrp
    split at hgrp
    · rcases List.mem_cons.mp hgrp with rfl | hgrp
      · exact ⟨by simpa using hg0, fun y hy => hg y (by simpa using hy)⟩
      · exact ih hl [w] hgw1 (by simp) grp hgrp
    · refine ih hl (w :: g) ?_ (by simp) grp hgrp
      intro y hy
      rcases List.mem_cons.mp hy with rfl | hy
      · exact hw
      · exact hg y hy

/-- Joining the grouped sentences with single spaces recovers the join of
all words. -/
theorem joinSp_sentWordsAux : ∀ (ws : List (List Char)), GoodWords ws →
    ∀ (g : List (List Char)), GoodWords g → g ≠ [] →
    joinSp ((sentWordsAux ws g).map joinSp) = joinSp (g.reverse ++ ws) := by
  intro ws
  induction ws with
  | nil =>
    intro _ g _ _
    simp [sentWordsAux, joinSp]
  | cons w l ih =>
    intro hws g hg hg0
    have hw := hws w (by simp)
    have hl : GoodWords l := fun y hy => hws y (by simp [hy])
    have hgw1 : GoodWords [w] := by
      intro y hy
      rw [List.mem_singleton] at hy
      subst hy
      exact hw
    simp only [sentWordsAux]
    split
    · rw [List.map_cons, joinSp_cons ?_, ih hl [w] hgw1 (by simp)]
      · rw [show (([w] : List (List Char)).reverse ++ l) = w :: l by simp]
        rw [← joinSp_append (by simpa using hg0) (by simp)]
      · intro hmap
        exact sentWordsAux_ne_nil l [w] (List.map_eq_nil_iff.mp hmap)
    · rw [ih hl (w :: g) ?_ (by simp)]
      · rw [List.reverse_cons, List.append_assoc]
        rfl
      · intro y hy
        rcases List.mem_cons.mp hy with rfl | hy
        · exact hw
        · exact hg y hy

/-- A map that is pointwise the identity is the identity. -/
theorem map_id_of {α : Type} {l : List α} {f : α → α} (h : ∀ x ∈ l, f x = x) :
    l.map f = l := by
  induction l with
  | nil => rfl
  | cons x xs ih => rw [List.map_cons, h x (by simp), ih (fun y hy => h y (by simp [hy]))]

/-- A filter that holds everywhere is the identity. -/
theorem filter_all_of {α : Type} {l : List α} {p : α → Bool} (h : ∀ x ∈ l, p x = true) :
    l.filter p = l := by
  induction l with
  | nil => rfl
  | cons x xs ih =>
    rw [List.filter_cons, if_pos (h x (by simp)), ih (fun y hy => h y (by simp [hy]))]

/-- On a canonical text the strip-and-drop pass keeps exactly the raw
fragments. -/
theorem sentences_joinSp {ws : List (List Char)} (hgw : GoodWords ws) (h0 : ws ≠ []) :
    sentences (joinSp ws) = (sentWords ws).map joinSp := by
  unfold sentences
  rw [sentSplit_joinSp hgw h0]
  have hgood : ∀ grp ∈ sentWords ws, grp ≠ [] ∧ GoodWords grp := by
    cases ws with
    | nil => exact absurd rfl h0
    | cons w l =>
      intro grp hgrp
      refine sentWordsAux_good l (fun y hy => hgw y (by simp [hy])) [w] ?_ (by simp) grp hgrp
      intro y hy
      rw [List.mem_singleton] at hy
      rw [hy]
      exact hgw w (by simp)
  have hmap : ((sentWords ws).map joinSp).map pyStrip = (sentWords ws).map joinSp := by
    apply map_id_of
    intro x hx
    obtain ⟨grp, hgrp, rfl⟩ := List.mem_map.mp hx
    have hg := hgood grp hgrp
    exact pyStrip_noop (joinSp_head hg.1 hg.2) (joinSp_revhead hg.1 hg.2)
  rw [hmap]
  apply filter_all_of
  intro x hx
  obtain ⟨grp, hgrp, rfl⟩ := List.mem_map.mp hx
  have hg := hgood grp hgrp
  exact decide_eq_true (joinSp_ne_nil hg.1 hg.2)

/-- The split depends on the input only through its cleaned text. -/
theorem splitText_congr {a b : List Char} (h : cleanText a = cleanText b) :
    splitText a = splitText b := by
  unfold splitText
  rw [h]

/-- Core of the idempotence claim: for a text whose collapse is label-free,
re-feeding `recommendation ++ " " ++ insights` through the split returns
the same pair. -/
theorem splitText_refeed {t : List Char} {ws : List (List Char)}
    (hws : pySplit t = ws) (hgw : GoodWords ws)
    (hf1 : ¬ recLabel <:+: joinSp ws) (hf2 : ¬ insLabel <:+: joinSp ws) :
    splitText ((splitText t).1 ++ ' ' :: (splitText t).2) = splitText t := by
  have hct : cleanText t = joinSp ws := cleanText_of_pySplit hws hgw hf1 hf2
  cases ws with
  | nil =>
    have hsp : splitText t = ([], []) := by
      unfold splitText
      rw [hct]
      rfl
    rw [hsp]
    decide
  | cons w l =>
    have h0 : (w :: l : List (List Char)) ≠ [] := by simp
    have hsents : sentences (cleanText t) = (sentWords (w :: l)).map joinSp := by
      rw [hct]
      exact sentences_joinSp hgw h0
    have hcleanF : cleanText (joinSp (w :: l)) = joinSp (w :: l) :=
      cleanText_of_pySplit (pySplit_joinSp hgw) hgw hf1 hf2
    have hpt : pySplit (joinSp (w :: l) ++ [' ']) = w :: l := by
      unfold pySplit
      rw [pySplitAux_trailing]
      exact pySplit_joinSp hgw
    have hcleanT : cleanText (joinSp (w :: l) ++ [' ']) = joinSp (w :: l) :=
      cleanText_of_pySplit hpt hgw hf1 hf2
    rcases hgrp : sentWords (w :: l) with _ | ⟨g1, gs⟩
    · exact absurd hgrp (sentWordsAux_ne_nil l [w])
    · rw [hgrp, List.map_cons] at hsents
      have hrejoin : joinSp (joinSp g1 :: gs.map joinSp) = joinSp (w :: l) := by
        rw [← List.map_cons, ← hgrp]
        have h2 := joinSp_sentWordsAux l (fun y hy => hgw y (by simp [hy])) [w]
          (by intro y hy; rw [List.mem_singleton] at hy; rw [hy]; exact hgw w (by simp))
          (by simp)
        rw [show sentWords (w :: l) = sentWordsAux l [w] from rfl, h2]
        simp
      cases gs with
      | nil =>
        have hsp : splitText t = (cleanText t, []) := by
          unfold splitText
          rw [hsents]
          rfl
        rw [hsp]
        show splitText (cleanText t ++ [' ']) = (cleanText t, [])
        rw [← hsp]
        apply splitText_congr
        rw [hct]
        exact hcleanT
      | cons g2 gs2 =>
        have hu2 : (splitText t).1 ++ ' ' :: (splitText t).2 = joinSp (w :: l) := by
          rw [← hrejoin]
          unfold splitText
          rw [hsents]
          cases gs2 with
          | nil => simp [joinSp]
          | cons g3 gs3 => rfl
        rw [hu2]
        exact splitText_congr (hcleanF.trans hct.symm)

/-! ## Claim C1: the tie-break policy of the sentence split -/

/-- Claim C1: after the cleaning pass (whitespace collapse, label
stripping, sentence split on terminal punctuation followed by whitespace,
empty fragments dropped), the split obeys the tie-break: 0 or 1 sentence
gives `(full cleaned text, "")`, exactly 2 gives `(first, second)`, 3 or
more gives `(first, remaining sentences joined by single spaces)`. -/
theorem c1_tie_break (t : List Char) :
    ((sentencesOf t).length ≤ 1 → splitText t = (cleanText t, [])) ∧
    (∀ a b, sentencesOf t = [a, b] → splitText t = (a, b)) ∧
    (∀ a rest, sentencesOf t = a :: rest → 2 ≤ rest.length →
      splitText t = (a, joinSp rest)) := by
  have hs : splitText t =
      (match sentencesOf t with
       | s1 :: s2 :: s3 :: rest => (s1, joinSp (s2 :: s3 :: rest))
       | [s1, s2] => (s1, s2)
       | _ => (cleanText t, [])) := rfl
  refine ⟨?_, ?_, ?_⟩
  · intro hlen
    rcases h : sentencesOf t with _ | ⟨a, _ | ⟨b, l⟩⟩
    · rw [hs, h]
    · rw [hs, h]
    · rw [h] at hlen; simp at hlen
  · intro a b h
    rw [hs, h]
  · intro a rest h hlen
    rcases rest with _ | ⟨b, _ | ⟨c, l⟩⟩
    · simp at hlen
    · simp at hlen
    · rw [hs, h]

/-- Witness for C1 at concrete one-, two-, and four-sentence inputs. -/
theorem c1_tie_break_witness :
    splitText "Hello there".toList = (cleanText "Hello there".toList, []) ∧
    splitText "One. Two.".toList = ("One.".toList, "Two.".toList) ∧
    splitText "One. Two! Three? Four.".toList =
      ("One.".toList, joinSp ["Two!".toList, "Three?".toList, "Four.".toList]) :=
  ⟨(c1_tie_break _).1 (by decide),
   (c1_tie_break _).2.1 _ _ (by decide),
   (c1_tie_break _).2.2 "One.".toList ["Two!".toList, "Three?".toList, "Four.".toList]
     (by decide) (by decide)⟩

/-! ## Claim C4: city extraction from a `WEATHER:`-prefixed output -/

/-- Claim C4 counterexample: `replace` deletes every occurrence of
`"WEATHER:"`, so when the remainder itself contains the label the city
used is not the trimmed remainder. -/
theorem c4_counterexample :
    weatherLabel.isPrefixOf "WEATHER: Paris WEATHER:".toList = true ∧
    classifyRoute "x".toList "WEATHER: Paris WEATHER:".toList =
      .weatherPath "Paris".toList ∧
    pyStrip ("WEATHER: Paris WEATHER:".toList.drop weatherLabel.length) =
      "Paris WEATHER:".toList ∧
    "Paris".toList ≠ "Paris WEATHER:".toList := by decide

/-- Claim C4 (amended): when the classifier output starts with
`"WEATHER:"` and the remainder contains no further occurrence of the
label, the city used equals the trimmed remainder (in general the code
deletes every occurrence of the label, then strips). -/
theorem c4_amended (u r : List Char)
    (h1 : weatherLabel.isPrefixOf r = true)
    (h2 : ¬ weatherLabel <:+: r.drop weatherLabel.length) :
    classifyRoute u r = .weatherPath (pyStrip (r.drop weatherLabel.length)) ∧
    extractCity r = pyStrip (r.drop weatherLabel.length) := by
  obtain ⟨t, rfl⟩ := List.isPrefixOf_iff_prefix.mp h1
  rw [List.drop_left] at h2 ⊢
  have hext : extractCity (weatherLabel ++ t) = pyStrip t := by
    unfold extractCity
    rw [removeAll_leading_label (by decide), removeAllAux_eq_self t h2]
  refine ⟨?_, hext⟩
  unfold classifyRoute
  simp only [h1, if_true]
  rw [hext]

/-- Witness for C4 (amended) at a concrete classifier output. -/
theorem c4_amended_witness :
    classifyRoute "x".toList "WEATHER: London".toList =
      .weatherPath (pyStrip ("WEATHER: London".toList.drop weatherLabel.length)) ∧
    extractCity "WEATHER: London".toList =
      pyStrip ("WEATHER: London".toList.drop weatherLabel.length) :=
  c4_amended _ _ (by decide) (by decide)

/-! ## Claim C6: provider failures become error results -/

/-- Claim C6: every provider failure (non-200 status, timeout, connection
or request error, undecodable body) makes `get_weather_insights` return an
error result echoing the attempted city with the human-readable message,
never a hard failure; in particular a 404 yields a message containing
`"not found"`. -/
theorem c6_provider_errors (city : List Char) (h : HttpResp) (llm : LLMOutcome) :
    (∀ e, get_weather city h = .error e →
      get_weather_insights city h llm =
        [("city".toList, .str city), ("error".toList, .str e)]) ∧
    (∀ text js, h = .resp 404 text js →
      ∃ e, get_weather city h = .error e ∧
        get_weather_insights city h llm =
          [("city".toList, .str city), ("error".toList, .str e)] ∧
        "not found".toList <:+: e) := by
  constructor
  · intro e he
    unfold get_weather_insights
    rw [he]
  · rintro text js rfl
    have hge : get_weather city (.resp 404 text js) =
        .error ("City '".toList ++ city ++
          "' not found (404). Please check the city name.".toList) := by
      simp [get_weather]
    refine ⟨_, hge, ?_, ?_⟩
    · unfold get_weather_insights
      rw [hge]
    · exact List.IsInfix.trans
        (by decide : "not found".toList <:+:
          "' not found (404). Please check the city name.".toList)
        (List.suffix_append _ _).isInfix

/-- Witness for C6: a 404 for `"Notarealplace"`. -/
theorem c6_provider_errors_witness :
    ∃ e, get_weather "Notarealplace".toList (.resp 404 [] none) = .error e ∧
      get_weather_insights "Notarealplace".toList (.resp 404 [] none) (.ok none) =
        [("city".toList, .str "Notarealplace".toList), ("error".toList, .str e)] ∧
      "not found".toList <:+: e :=
  (c6_provider_errors "Notarealplace".toList (.resp 404 [] none) (.ok none)).2 [] none rfl

/-! ## Claim C7: fallback on malformed classifier output -/

/-- Claim C7: when the classifier output matches neither prefix, an
utterance of at most 3 whitespace-separated tokens is routed to the
weather path with the raw utterance as the city, and a longer utterance
makes the raw model output the chat reply. -/
theorem c7_fallback_policy (u r : List Char)
    (h1 : weatherLabel.isPrefixOf r = false)
    (h2 : chatLabel.isPrefixOf r = false) :
    ((pySplit u).length ≤ 3 → classifyRoute u r = .weatherPath u) ∧
    (3 < (pySplit u).length → classifyRoute u r = .chatReply r) := by
  constructor
  · intro h
    simp [classifyRoute, h1, h2, h]
  · intro h
    have h' : ¬ (pySplit u).length ≤ 3 := by omega
    simp [classifyRoute, h1, h2, h']

/-- Witness for C7: a three-token and a five-token utterance with a
prefix-free classifier output. -/
theorem c7_fallback_policy_witness :
    classifyRoute "New York City".toList "gibberish output".toList =
      .weatherPath "New York City".toList ∧
    classifyRoute "tell me a joke please".toList "gibberish output".toList =
      .chatReply "gibberish output".toList :=
  ⟨(c7_fallback_policy _ _ (by decide) (by decide)).1 (by decide),
   (c7_fallback_policy _ _ (by decide) (by decide)).2 (by decide)⟩

/-! ## Claim C9: validation of required fields -/

/-- Claim C9: `validate_weather_data` returns `true` exactly when the five
required fields are all present and non-null, and the missing-field list
it surfaces contains exactly the required fields that are absent or null. -/
theorem c9_validate_required (wd : List (List Char × Json)) :
    (validate_weather_data wd = true ↔
      ∀ f ∈ requiredFields, (dictGetD wd f .null).isNull = false) ∧
    (∀ f, f ∈ missingFields wd ↔
      f ∈ requiredFields ∧ (dictGetD wd f .null).isNull = true) := by
  constructor
  · rw [validate_weather_data, List.isEmpty_iff, missingFields, List.filter_eq_nil_iff]
    simp [Bool.not_eq_true]
  · intro f
    rw [missingFields, List.mem_filter]

/-! ## Claim C10: result shape of `get_weather_insights` -/

/-- Claim C10: for every city and every provider/model behaviour,
`get_weather_insights` returns a dict whose keys are exactly
`{city, error}` or exactly the nine success keys (omitting `temp_min`,
`temp_max`, `pressure`, `weather_main`, `wind_deg`), so the presence of
`"error"` discriminates the two shapes. -/
theorem c10_result_shape (city : List Char) (h : HttpResp) (llm : LLMOutcome) :
    (dictKeys (get_weather_insights city h llm) = errKeys ∨
     dictKeys (get_weather_insights city h llm) = okKeys) ∧
    ("error".toList ∈ dictKeys (get_weather_insights city h llm) ↔
      dictKeys (get_weather_insights city h llm) = errKeys) ∧
    "temp_min".toList ∉ dictKeys (get_weather_insights city h llm) := by
  have hshape : dictKeys (get_weather_insights city h llm) = errKeys ∨
      dictKeys (get_weather_insights city h llm) = okKeys := by
    cases hgw : get_weather city h with
    | error e => left; simp [get_weather_insights, hgw, dictKeys, errKeys]
    | ok raw =>
      cases hp : parse_weather_data raw with
      | error e => left; simp [get_weather_insights, hgw, hp, dictKeys, errKeys]
      | ok parsed => right; simp [get_weather_insights, hgw, hp, dictKeys, okKeys]
  refine ⟨hshape, ?_, ?_⟩
  · rcases hshape with hs | hs <;> rw [hs]
    · exact iff_of_true (by decide) rfl
    · exact iff_of_false (by decide) (by decide)
  · rcases hshape with hs | hs <;> rw [hs] <;> decide

/-! ## Claim C2: empty insight generation -/

/-- Claim C2 counterexample: on a valid weather record with an empty model
response, the weather fields are intact but the placeholder lands in
`recommendation` (it is a single sentence, so the tie-break routes it
there) and `insights` is the empty string, not the placeholder. -/
theorem c2_counterexample :
    dictLookup (get_weather_insights "London".toList (.resp 200 [] (some goodResp))
        (.ok (some []))) "insights".toList ≠ some (.str placeholderText) ∧
    dictLookup (get_weather_insights "London".toList (.resp 200 [] (some goodResp))
        (.ok (some []))) "insights".toList = some (.str []) ∧
    dictLookup (get_weather_insights "London".toList (.resp 200 [] (some goodResp))
        (.ok (some []))) "recommendation".toList = some (.str placeholderText) ∧
    dictLookup (get_weather_insights "London".toList (.resp 200 [] (some goodResp))
        (.ok (some []))) "temperature".toList = some (.num 15) := by
  refine ⟨?_, rfl, rfl, rfl⟩
  intro h
  rw [show dictLookup (get_weather_insights "London".toList (.resp 200 [] (some goodResp))
      (.ok (some []))) "insights".toList = some (.str []) from rfl] at h
  exact absurd (Json.str.inj (Option.some.inj h)) (by decide)

/-- Claim C2 (amended): when the fetch and parse succeed and insight
generation fails (in particular on empty model output), the turn still
returns the success-shaped result with the parsed weather fields, the
placeholder text as `recommendation`, and `insights` empty. -/
theorem c2_amended (city : List Char) (http : HttpResp) (llm : LLMOutcome)
    (raw : Json) (parsed : List (List Char × Json)) (e : List Char)
    (h1 : get_weather city http = .ok raw)
    (h2 : parse_weather_data raw = .ok parsed)
    (h3 : generate_insights llm = .error e) :
    get_weather_insights city http llm =
      [("city".toList, dictGetD parsed "city".toList .null),
       ("country".toList, dictGetD parsed "country".toList .null),
       ("temperature".toList, dictGetD parsed "temperature".toList .null),
       ("feels_like".toList, dictGetD parsed "feels_like".toList .null),
       ("description".toList, dictGetD parsed "description".toList .null),
       ("humidity".toList, dictGetD parsed "humidity".toList .null),
       ("wind_speed".toList, dictGetD parsed "wind_speed".toList .null),
       ("recommendation".toList, .str placeholderText),
       ("insights".toList, .str [])] := by
  have hsp : splitText placeholderText = (placeholderText, []) := by decide
  simp [get_weather_insights, h1, h2, h3, hsp]

/-- Witness for C2 (amended): empty model output on the London payload. -/
theorem c2_amended_witness :
    ∃ parsed, parse_weather_data goodResp = .ok parsed ∧
      get_weather_insights "London".toList (.resp 200 [] (some goodResp)) (.ok (some [])) =
        [("city".toList, dictGetD parsed "city".toList .null),
         ("country".toList, dictGetD parsed "country".toList .null),
         ("temperature".toList, dictGetD parsed "temperature".toList .null),
         ("feels_like".toList, dictGetD parsed "feels_like".toList .null),
         ("description".toList, dictGetD parsed "description".toList .null),
         ("humidity".toList, dictGetD parsed "humidity".toList .null),
         ("wind_speed".toList, dictGetD parsed "wind_speed".toList .null),
         ("recommendation".toList, .str placeholderText),
         ("insights".toList, .str [])] :=
  ⟨_, rfl, c2_amended _ _ _ goodResp _ _ rfl rfl rfl⟩

/-! ## Claim C3: `N/A` substitution in `format_weather_for_llm` -/

set_option maxRecDepth 8192 in
/-- Claim C3 counterexample: a parsed record whose `temperature` is null
renders with `"None°C"`, and `"N/A"` appears nowhere — the `.get`
defaults only fire for absent keys, and parse outputs carry every key. -/
theorem c3_counterexample :
    ∃ parsed, parse_weather_data rawParis = .ok parsed ∧
      dictLookup parsed "temperature".toList = some .null ∧
      ¬ ("N/A".toList <:+: format_weather_for_llm parsed) ∧
      "None°C".toList <:+: format_weather_for_llm parsed :=
  ⟨_, rfl, by decide, by decide, by decide⟩

/-- Claim C3 (amended): on every record produced by the parser, the
fixed-layout block renders each field with Python `str()` of the stored
value — so a null field renders as `"None"` (`pyStr Json.null = "None"`),
and the `"N/A"` defaults are reserved for keys absent from the dict. -/
theorem c3_amended (raw : Json) (parsed : List (List Char × Json))
    (h : parse_weather_data raw = .ok parsed) :
    format_weather_for_llm parsed =
      "Current Weather Report\n======================\nLocation    : ".toList ++
      pyStr (dictGetD parsed "city".toList .null) ++ ", ".toList ++
      pyStr (dictGetD parsed "country".toList .null) ++
      "\nCondition   : ".toList ++ pyStr (dictGetD parsed "description".toList .null) ++
      "\nTemperature : ".toList ++ pyStr (dictGetD parsed "temperature".toList .null) ++
      "°C (feels like ".toList ++ pyStr (dictGetD parsed "feels_like".toList .null) ++
      "°C)\nRange       : ".toList ++ pyStr (dictGetD parsed "temp_min".toList .null) ++
      "°C – ".toList ++ pyStr (dictGetD parsed "temp_max".toList .null) ++
      "°C\nHumidity    : ".toList ++ pyStr (dictGetD parsed "humidity".toList .null) ++
      "%\nWind Speed  : ".toList ++ pyStr (dictGetD parsed "wind_speed".toList .null) ++
      " m/s\n".toList ∧
    pyStr Json.null = "None".toList := by
  obtain ⟨c, co, te, fe, tmi, tma, pr, hu, de, wm, ws, wd, rfl⟩ := parse_ok_shape h
  exact ⟨rfl, rfl⟩

/-- Witness for C3 (amended) at the name-only Paris payload. -/
theorem c3_amended_witness :
    ∃ parsed, parse_weather_data rawParis = .ok parsed ∧
      (format_weather_for_llm parsed =
        "Current Weather Report\n======================\nLocation    : ".toList ++
        pyStr (dictGetD parsed "city".toList .null) ++ ", ".toList ++
        pyStr (dictGetD parsed "country".toList .null) ++
        "\nCondition   : ".toList ++ pyStr (dictGetD parsed "description".toList .null) ++
        "\nTemperature : ".toList ++ pyStr (dictGetD parsed "temperature".toList .null) ++
        "°C (feels like ".toList ++ pyStr (dictGetD parsed "feels_like".toList .null) ++
        "°C)\nRange       : ".toList ++ pyStr (dictGetD parsed "temp_min".toList .null) ++
        "°C – ".toList ++ pyStr (dictGetD parsed "temp_max".toList .null) ++
        "°C\nHumidity    : ".toList ++ pyStr (dictGetD parsed "humidity".toList .null) ++
        "%\nWind Speed  : ".toList ++ pyStr (dictGetD parsed "wind_speed".toList .null) ++
        " m/s\n".toList ∧
      pyStr Json.null = "None".toList) :=
  ⟨_, rfl, c3_amended rawParis _ rfl⟩

/-! ## Claim C5: totality of `parse_weather_data` -/

/-- Claim C5 counterexample: a non-empty payload whose `weather` field is
a number makes `parse_weather_data` fail with a `TypeError`, not succeed,
and not with the empty-input error. -/
theorem c5_counterexample :
    pyTruthy rawBadWeather = true ∧
    parse_weather_data rawBadWeather =
      .error "'int' object is not subscriptable".toList ∧
    "'int' object is not subscriptable".toList ≠ emptyMsg := by
  refine ⟨rfl, rfl, ?_⟩
  decide

/-- Claim C5 (amended): `parse_weather_data` fails with the empty-input
error exactly on falsy payloads, provided the payload is well-typed (a
dict whose `sys`/`main`/`wind`/`weather` fields have the provider's
types); on such payloads every missing path yields a null field — in
particular a missing `weather` list gives null `description` and
`weather_main`.  On ill-typed payloads it can fail with a dynamic error
instead. -/
theorem c5_amended (raw : Json) (hw : wellTypedPayload raw = true) :
    (pyTruthy raw = false → parse_weather_data raw = .error emptyMsg) ∧
    (pyTruthy raw = true → ∃ parsed, parse_weather_data raw = .ok parsed) ∧
    (∀ fs, raw = .obj fs → pyTruthy raw = true →
      fs.lookup "weather".toList = none →
      ∃ parsed, parse_weather_data raw = .ok parsed ∧
        dictGetD parsed "description".toList .null = .null ∧
        dictGetD parsed "weather_main".toList .null = .null) := by
  refine ⟨?_, ?_, ?_⟩
  · intro h
    simp [parse_weather_data, h]
  · intro ht
    obtain ⟨fs, rfl⟩ : ∃ fs, raw = .obj fs := by
      cases raw <;> first
        | exact ⟨_, rfl⟩
        | (simp only [wellTypedPayload] at hw; rw [ht] at hw; exact absurd hw (by decide))
    simp only [wellTypedPayload, Bool.and_eq_true] at hw
    obtain ⟨⟨⟨hsys, hmain⟩, hwind⟩, hweather⟩ := hw
    obtain ⟨sg, hsg⟩ := fieldIsObj_getD hsys
    obtain ⟨mg, hmg⟩ := fieldIsObj_getD hmain
    obtain ⟨wg, hwg⟩ := fieldIsObj_getD hwind
    obtain ⟨fg, hfg⟩ := weatherOk_getD hweather
    have hne : fs.isEmpty = false := by
      cases hfe : fs.isEmpty
      · rfl
      · rw [show pyTruthy (.obj fs) = !fs.isEmpty from rfl, hfe] at ht
        exact Bool.noConfusion ht
    exact ⟨_, parse_obj_ok hne sg mg wg fg hsg hmg hwg hfg⟩
  · rintro fs rfl ht hwl
    simp only [wellTypedPayload, Bool.and_eq_true] at hw
    obtain ⟨⟨⟨hsys, hmain⟩, hwind⟩, -⟩ := hw
    obtain ⟨sg, hsg⟩ := fieldIsObj_getD hsys
    obtain ⟨mg, hmg⟩ := fieldIsObj_getD hmain
    obtain ⟨wg, hwg⟩ := fieldIsObj_getD hwind
    have hne : fs.isEmpty = false := by
      cases hfe : fs.isEmpty
      · rfl
      · rw [show pyTruthy (.obj fs) = !fs.isEmpty from rfl, hfe] at ht
        exact Bool.noConfusion ht
    have hfg : firstWeatherStep ((fs.lookup "weather".toList).getD (.arr .nil)) =
        Except.ok (Json.obj .nil) := by
      rw [hwl]
      rfl
    exact ⟨_, parse_obj_ok hne sg mg wg .nil hsg hmg hwg hfg, rfl, rfl⟩

/-- Witness for C5 (amended): a falsy payload, the full London payload,
and the name-only payload with no `weather` list. -/
theorem c5_amended_witness :
    parse_weather_data (Json.bool false) = .error emptyMsg ∧
    (∃ parsed, parse_weather_data goodResp = .ok parsed) ∧
    (∃ parsed, parse_weather_data rawParis = .ok parsed ∧
      dictGetD parsed "description".toList .null = .null ∧
      dictGetD parsed "weather_main".toList .null = .null) :=
  ⟨(c5_amended (Json.bool false) (by decide)).1 rfl,
   (c5_amended goodResp (by decide)).2.1 rfl,
   (c5_amended rawParis (by decide)).2.2 _ rfl rfl rfl⟩

/-! ## Claim C8: idempotence of the sentence split -/

/-- Claim C8 counterexample: on `"a Recommendation: b"` the label removal
leaves a double space, so re-feeding `recommendation ++ " " ++ insights`
yields a different pair even though the sentence count (1) is unchanged. -/
theorem c8_counterexample :
    (sentencesOf ((splitText "a Recommendation: b".toList).1 ++ ' ' ::
        (splitText "a Recommendation: b".toList).2)).length =
      (sentencesOf "a Recommendation: b".toList).length ∧
    splitText ((splitText "a Recommendation: b".toList).1 ++ ' ' ::
        (splitText "a Recommendation: b".toList).2) ≠
      splitText "a Recommendation: b".toList := by
  refine ⟨rfl, ?_⟩
  decide

/-- Claim C8 (amended): for every text containing no occurrence of the
literal label tokens `"Recommendation:"` or `"Insights:"`, re-feeding
`recommendation ++ " " ++ insights` through the split algorithm yields the
same pair (hence also the same sentence count). -/
theorem c8_amended (t : List Char)
    (h1 : ¬ recLabel <:+: t) (h2 : ¬ insLabel <:+: t) :
    splitText ((splitText t).1 ++ ' ' :: (splitText t).2) = splitText t := by
  have hgw : GoodWords (pySplit t) :=
    goodWords_pySplitAux t [] (fun x hx => absurd hx (List.not_mem_nil x))
  exact splitText_refeed rfl hgw
    (no_label_collapse (by decide) (by unfold NoSp; decide) h1)
    (no_label_collapse (by decide) (by unfold NoSp; decide) h2)

/-- Witness for C8 (amended) at a concrete label-free three-sentence
text. -/
theorem c8_amended_witness :
    splitText ((splitText "It is sunny. Wear a hat. Enjoy!".toList).1 ++ ' ' ::
      (splitText "It is sunny. Wear a hat. Enjoy!".toList).2) =
    splitText "It is sunny. Wear a hat. Enjoy!".toList :=
  c8_amended _ (by decide) (by decide)

end WeatherApp
